import Mathlib

/-!
# A shallow embedding of `src/cidr.go` (cptu-cidr)

This file embeds the CIDR-allocation core of `src/cidr.go`: the function
`selectCIDRBlock`, the hardware-size table `tpuDeviceNetworkSizes` with its
lookup `cidrBlockSize`, and the pieces of Go's standard library that the file
uses (`net.ParseCIDR`, `(*net.IPNet).Contains`, `(*net.IPNet).String`,
`net.IP.String`, `strings.HasSuffix`, `strings.Split`), restricted to IPv4
dotted-quad addresses — the only address family the program's own data uses.

Modelling conventions:
* `rand.Intn n` is modelled by an oracle stream `rng : Nat → Nat`; the k-th
  call to the generator returns `rng k % n` (always in `[0, n)` for `n > 0`,
  exactly the contract of `rand.Intn`).  `rand.Seed` only influences which
  stream the process sees, so it needs no counterpart.
* the unbounded `for {}` sampling loop is given explicit fuel; running out of
  fuel yields `none`.
* `fmt.Println("continue")` in the route filter is an output side effect with
  no influence on the returned value, so it has no counterpart here.
* Go `byte(e)` conversions are modelled as `e % 256`.
* `net.ParseCIDR` also accepts IPv6 CIDRs, which this embedding (like the
  program's data) does not cover: here a non-IPv4 destination range simply
  fails to parse.
-/

/-- An IPv4 address as four octets (Go `net.IP`, viewed through its 4-byte
dotted-quad form; `net.IPv4(a, b, c, d)` is the anonymous constructor). -/
structure IPv4 where
  o1 : Nat
  o2 : Nat
  o3 : Nat
  o4 : Nat
deriving DecidableEq, Repr

/-- Keep the top `k` bits of one octet (`k ≥ 8` keeps the whole octet),
clearing the rest: one octet's worth of Go `IP.Mask`. -/
def maskOctet (o k : Nat) : Nat := o / 2 ^ (8 - k) * 2 ^ (8 - k)

/-- How many mask bits of an `n`-bit CIDR mask fall in octet `i` (0-based). -/
def octBits (n i : Nat) : Nat := min 8 (n - 8 * i)

/-- Go `ip.Mask(net.CIDRMask(n, 32))`: zero all but the top `n` bits. -/
def maskIP (ip : IPv4) (n : Nat) : IPv4 :=
  ⟨maskOctet ip.o1 (octBits n 0), maskOctet ip.o2 (octBits n 1),
   maskOctet ip.o3 (octBits n 2), maskOctet ip.o4 (octBits n 3)⟩

/-- Go `*net.IPNet` as produced by `net.ParseCIDR`: the masked base address
together with the mask's ones count (`ipNet.Mask.Size()`; the mask built by
`ParseCIDR` is always canonical, so `Size` returns the prefix length). -/
structure CIDRBlock where
  base : IPv4
  ones : Nat
deriving DecidableEq, Repr

/-- Go `(*net.IPNet).Contains(ip)`: mask the address with the network's mask
and compare with the base address. -/
def CIDRBlock.contains (b : CIDRBlock) (ip : IPv4) : Bool :=
  decide (maskIP ip b.ones = b.base)

/-! ## Decimal strings: Go `dtoi`/`uitoa`, field splitting -/

/-- Decimal value of a digit string (Go `dtoi`'s accumulator). -/
def decValue (cs : List Char) : Nat := cs.foldl (fun a c => a * 10 + (c.toNat - 48)) 0

/-- Decimal rendering of a natural number, most significant digit first
(Go `uitoa`; also what `fmt.Sprintf("%d", _)` produces). -/
def natToDec (n : Nat) : List Char := Nat.toDigits 10 n

/-- Split a character list at the FIRST occurrence of `sep`; `none` if `sep`
does not occur (Go `byteIndex(s, '/')` as used by `net.ParseCIDR`). -/
def splitFirst (sep : Char) : List Char → Option (List Char × List Char)
  | [] => none
  | c :: rest =>
    if c = sep then some ([], rest)
    else
      match splitFirst sep rest with
      | some (a, b) => some (c :: a, b)
      | none => none

/-- Split at EVERY occurrence of `sep` (Go `strings.Split` with a one-byte
separator); always returns at least one segment. -/
def splitOnChar (sep : Char) : List Char → List (List Char)
  | [] => [[]]
  | c :: rest =>
    match splitOnChar sep rest with
    | [] => [[c]]
    | s :: ss => if c = sep then [] :: s :: ss else (c :: s) :: ss

/-- One dotted-quad field, as Go `parseIPv4` treats it: nonempty, all decimal
digits, no leading zero, value at most 255. -/
def parseOctet (cs : List Char) : Option Nat :=
  match cs with
  | [] => none
  | c :: rest =>
    if (c :: rest).all Char.isDigit then
      if c = '0' ∧ rest ≠ [] then none
      else if decValue (c :: rest) ≤ 255 then some (decValue (c :: rest)) else none
    else none

/-- The prefix-length field after the `/`, as `net.ParseCIDR` treats it:
nonempty, all decimal digits (`dtoi` must consume the whole field), value at
most 32 for an IPv4 address. -/
def parseMask (cs : List Char) : Option Nat :=
  match cs with
  | [] => none
  | c :: rest =>
    if (c :: rest).all Char.isDigit ∧ decValue (c :: rest) ≤ 32 then
      some (decValue (c :: rest))
    else none

/-- Go `parseIPv4`: exactly four `.`-separated octet fields. -/
def parseIPv4 (cs : List Char) : Option IPv4 :=
  match splitOnChar '.' cs with
  | [a, b, c, d] =>
    match parseOctet a, parseOctet b, parseOctet c, parseOctet d with
    | some x1, some x2, some x3, some x4 => some ⟨x1, x2, x3, x4⟩
    | _, _, _, _ => none
  | _ => none

/-- Go `net.ParseCIDR` (IPv4 case), returning its second result `*net.IPNet`:
split at the first `/`, parse the address and the mask length, and store the
MASKED address as the network base. `none` is Go's non-nil error. -/
def parseCIDR (s : String) : Option CIDRBlock :=
  match splitFirst '/' s.toList with
  | none => none
  | some (a, m) =>
    match parseIPv4 a, parseMask m with
    | some ip, some n => some ⟨maskIP ip n, n⟩
    | _, _ => none

/-- Dotted-quad characters of an address (Go `net.IP.String()` for a 4-byte
address). -/
def ipChars (ip : IPv4) : List Char :=
  natToDec ip.o1 ++ '.' :: (natToDec ip.o2 ++ '.' :: (natToDec ip.o3 ++ '.' :: natToDec ip.o4))

/-- Go `fmt.Sprintf("%s/%d", ip.String(), n)`; for a `CIDRBlock` with canonical
mask this is also exactly Go `(*net.IPNet).String()`. -/
def formatCIDR (ip : IPv4) (n : Nat) : String := ⟨ipChars ip ++ '/' :: natToDec n⟩

/-- Go `(*net.IPNet).String()` (canonical mask case): masked base, `/`, ones. -/
def cidrString (b : CIDRBlock) : String := formatCIDR b.base b.ones

/-- Go `strings.HasSuffix` (on the character sequence). -/
def hasSuffix (s pat : String) : Bool := pat.toList.isSuffixOf s.toList

/-! ## The program itself -/

/-- The two fields of `*compute.Route` that `selectCIDRBlock` reads. -/
structure Route where
  Network : String
  DestRange : String
deriving DecidableEq, Repr

/-- The error outcomes of `cidr.go`, in source order. -/
inductive AllocError where
  /-- the `net.ParseCIDR` error on a route's `DestRange` (line 44–47). -/
  | malformedRoute (destRange : String)
  /-- message "Cloud TPUs cannot be used with legacy networks, please create
  a new GCP project" (line 52–54). -/
  | legacyUnsupported
  /-- message "existing routing entries appear to entirely cover the IP-range
  ctpu uses" (line 55–57). -/
  | rangeExhausted
  /-- message "error parsing constructed CIDR: %v" (line 75–78). -/
  | malformedConstructedCIDR (s : String)
  /-- message "error parsing cidr block %q" (line 79–82). -/
  | malformedSplit (s : String)
  /-- message "unknown TPU device size %q" (line 130–136). -/
  | unknownHardwareType (hardwareType : String)
deriving DecidableEq, Repr

/-- Go `var legacyNetwork = net.IPv4(10, 240, 0, 0)` (line 34). -/
def legacyNetwork : IPv4 := ⟨10, 240, 0, 0⟩

/-- The route-filtering loop of `selectCIDRBlock` (lines 37–59): builds the
`cidrBlocks` conflict set, or aborts with the first error.  An append at the
head of the recursive result yields the same list, in the same order, as Go's
`cidrBlocks = append(cidrBlocks, ipNet)`. -/
def filterRoutes (routes : List Route) (network : String) : Except AllocError (List CIDRBlock) :=
  match routes with
  | [] => .ok []
  | i :: rest =>
    if hasSuffix i.Network network then
      match parseCIDR i.DestRange with
      | none => .error (.malformedRoute i.DestRange)
      | some ipNet =>
        if ipNet.ones < 8 then filterRoutes rest network
        else if ipNet.base = legacyNetwork ∧ ipNet.ones ≤ 16 then .error .legacyUnsupported
        else if ipNet.ones ≤ 16 ∧ ipNet.contains ⟨10, 240, 1, 1⟩ ∧
            ipNet.contains ⟨10, 240, 250, 250⟩ then .error .rangeExhausted
        else
          match filterRoutes rest network with
          | .error e => .error e
          | .ok l => .ok (ipNet :: l)
    else filterRoutes rest network

/-- Line 61, `fourthOctetIncrement := 1 << (32 - cidrBlockSize)`.  Faithful
for `cidrBlockSize ≤ 32`; for a larger size the Go `uint` subtraction wraps,
the shift result is 0 and the later `255 / 0` panics, a case outside every
claim's scope (and outside `tpuDeviceNetworkSizes`' value range). -/
def fourthOctetIncrement (cidrBlockSize : Nat) : Nat := 2 ^ (32 - cidrBlockSize)

/-- The `k`-th call to `rand.Intn n` under oracle stream `rng`. -/
def intn (rng : Nat → Nat) (k n : Nat) : Nat := rng k % n

/-- Line 67, `thirdOctet := byte(rand.Intn(254) + 1)`, in iteration `k` of
the sampling loop (the loop's two draws use oracle indices `2k` and `2k+1`). -/
def thirdOctetDraw (rng : Nat → Nat) (k : Nat) : Nat := (intn rng (2 * k) 254 + 1) % 256

/-- Line 68,
`fourthOctet := byte(rand.Intn((255/fourthOctetIncrement)*fourthOctetIncrement + 1))`, in iteration `k` of the sampling loop. -/
def fourthOctetDraw (cidrBlockSize : Nat) (rng : Nat → Nat) (k : Nat) : Nat :=
  (intn rng (2 * k + 1)
    (255 / fourthOctetIncrement cidrBlockSize * fourthOctetIncrement cidrBlockSize + 1)) % 256

/-- The inner conflict loop (lines 70–74).  Its `continue` targets the
innermost `for`, i.e. this loop itself, so the loop inspects each block's
`Contains` result and does nothing with it; its value is `Unit`. -/
def conflictScan (cidrBlocks : List CIDRBlock) (ip : IPv4) : Unit :=
  match cidrBlocks with
  | [] => ()
  | block :: rest => if block.contains ip then conflictScan rest ip else conflictScan rest ip

/-- One iteration of the sampling loop body (lines 66–84).  Every control
path of the Go body ends in a `return`, so the body produces a result
directly. -/
def sampleBody (cidrBlockSize : Nat) (cidrBlocks : List CIDRBlock) (rng : Nat → Nat)
    (k : Nat) : Except AllocError String :=
  let thirdOctet := thirdOctetDraw rng k
  let fourthOctet := fourthOctetDraw cidrBlockSize rng k
  let candidateIPAddress : IPv4 := ⟨10, 240, thirdOctet, fourthOctet⟩
  let _scan := conflictScan cidrBlocks candidateIPAddress
  match parseCIDR (formatCIDR candidateIPAddress cidrBlockSize) with
  | none => .error (.malformedConstructedCIDR (formatCIDR candidateIPAddress cidrBlockSize))
  | some newCidr =>
    if (splitOnChar '/' (cidrString newCidr).toList).length ≠ 2 then
      .error (.malformedSplit (cidrString newCidr))
    else .ok (cidrString newCidr)

/-- The unbounded `for {}` sampling loop (line 66), with fuel: `none` means
the fuel ran out before an iteration returned. -/
def selectLoop (cidrBlockSize : Nat) (cidrBlocks : List CIDRBlock) (rng : Nat → Nat) :
    Nat → Nat → Option (Except AllocError String)
  | _, 0 => none
  | k, _ + 1 => some (sampleBody cidrBlockSize cidrBlocks rng k)

/-- The function `selectCIDRBlock` (lines 36–110): filter the routes into the conflict
set, then sample.  `some (.ok s)` is Go's `(s, nil)`, `some (.error e)` is
`("", e)`, `none` means the fuel ran out. -/
def selectCIDRBlock (routes : List Route) (cidrBlockSize : Nat) (network : String)
    (rng : Nat → Nat) (fuel : Nat) : Option (Except AllocError String) :=
  match filterRoutes routes network with
  | .error e => some (.error e)
  | .ok cidrBlocks => selectLoop cidrBlockSize cidrBlocks rng 0 fuel

/-- Go `var tpuDeviceNetworkSizes = map[string]uint{...}` (lines 113–127).  The
Go map is keyed by distinct string literals; an association list with those
pairs gives the same lookup function.  Nothing in the program writes to it. -/
def tpuDeviceNetworkSizes : List (String × Nat) :=
  [("v2-8", 29), ("v2-32", 29), ("v2-128", 27), ("v2-256", 26), ("v2-512", 25),
   ("v3-8", 29), ("v3-32", 29), ("v3-64", 28), ("v3-128", 27), ("v3-256", 26),
   ("v3-512", 25), ("v3-1024", 24)]

/-- The function `cidrBlockSize` (lines 130–136): table lookup, or the
unknown-hardware-type error. -/
def cidrBlockSize (hardwareType : String) : Except AllocError Nat :=
  match tpuDeviceNetworkSizes.lookup hardwareType with
  | some cidrBits => .ok cidrBits
  | none => .error (.unknownHardwareType hardwareType)

/-! ## Decimal strings round-trip -/

set_option maxRecDepth 4000 in
lemma natToDec_digits : ∀ n : Nat, n < 256 → (natToDec n).all Char.isDigit = true := by decide

set_option maxRecDepth 4000 in
lemma parseOctet_natToDec : ∀ n : Nat, n < 256 → parseOctet (natToDec n) = some n := by decide

set_option maxRecDepth 4000 in
lemma parseMask_natToDec : ∀ n : Nat, n < 33 → parseMask (natToDec n) = some n := by decide

lemma not_mem_of_all_isDigit {l : List Char} {c : Char} (hd : l.all Char.isDigit = true)
    (hc : c.isDigit = false) : c ∉ l := by
  intro hm
  have := List.all_eq_true.mp hd c hm
  rw [hc] at this
  exact Bool.noConfusion this

lemma dot_not_mem_natToDec {n : Nat} (h : n < 256) : '.' ∉ natToDec n :=
  not_mem_of_all_isDigit (natToDec_digits n h) (by decide)

lemma slash_not_mem_natToDec {n : Nat} (h : n < 256) : '/' ∉ natToDec n :=
  not_mem_of_all_isDigit (natToDec_digits n h) (by decide)

/-! ## Splitting lemmas -/

lemma splitFirst_append (sep : Char) (a b : List Char) (h : sep ∉ a) :
    splitFirst sep (a ++ sep :: b) = some (a, b) := by
  induction a with
  | nil => simp [splitFirst]
  | cons c rest ih =>
    have hc : ¬ c = sep := fun hh => h (by rw [hh]; exact List.mem_cons_self _ _)
    have hr : sep ∉ rest := fun hh => h (List.mem_cons_of_mem c hh)
    simp [splitFirst, hc, ih hr]

lemma splitOnChar_ne_nil (sep : Char) (l : List Char) : splitOnChar sep l ≠ [] := by
  cases l with
  | nil => simp [splitOnChar]
  | cons c rest =>
    rw [splitOnChar]
    cases splitOnChar sep rest with
    | nil => simp
    | cons s ss =>
      by_cases hc : c = sep <;> simp [hc]

lemma splitOnChar_not_mem (sep : Char) (l : List Char) (h : sep ∉ l) :
    splitOnChar sep l = [l] := by
  induction l with
  | nil => rfl
  | cons c rest ih =>
    have hc : ¬ c = sep := fun hh => h (by rw [hh]; exact List.mem_cons_self _ _)
    have hr : sep ∉ rest := fun hh => h (List.mem_cons_of_mem c hh)
    rw [splitOnChar, ih hr]
    simp [hc]

lemma splitOnChar_append (sep : Char) (a r : List Char) (h : sep ∉ a) :
    splitOnChar sep (a ++ sep :: r) = a :: splitOnChar sep r := by
  induction a with
  | nil =>
    rw [List.nil_append, splitOnChar]
    cases hsp : splitOnChar sep r with
    | nil => exact absurd hsp (splitOnChar_ne_nil sep r)
    | cons s ss => simp
  | cons c rest ih =>
    have hc : ¬ c = sep := fun hh => h (by rw [hh]; exact List.mem_cons_self _ _)
    have hr : sep ∉ rest := fun hh => h (List.mem_cons_of_mem c hh)
    rw [List.cons_append, splitOnChar, ih hr]
    simp [hc]

/-! ## Mask algebra -/

lemma maskOctet_le (o k : Nat) : maskOctet o k ≤ o := Nat.div_mul_le_self o _

lemma maskOctet_lt_256 {o : Nat} (k : Nat) (h : o < 256) : maskOctet o k < 256 :=
  Nat.lt_of_le_of_lt (maskOctet_le o k) h

lemma maskOctet_maskOctet (o kb ks : Nat) (h : ks ≤ kb) :
    maskOctet (maskOctet o kb) ks = maskOctet o ks := by
  unfold maskOctet
  have hAB : 8 - kb ≤ 8 - ks := Nat.sub_le_sub_left h 8
  have h2 : (2 : Nat) ^ (8 - ks) = 2 ^ (8 - kb) * 2 ^ ((8 - ks) - (8 - kb)) := by
    rw [← pow_add]
    congr 1
    omega
  rw [h2]
  congr 1
  calc o / 2 ^ (8 - kb) * 2 ^ (8 - kb) / (2 ^ (8 - kb) * 2 ^ ((8 - ks) - (8 - kb)))
      = o / 2 ^ (8 - kb) * 2 ^ (8 - kb) / 2 ^ (8 - kb) / 2 ^ ((8 - ks) - (8 - kb)) := by
        rw [Nat.div_div_eq_div_mul]
    _ = o / 2 ^ (8 - kb) / 2 ^ ((8 - ks) - (8 - kb)) := by
        rw [Nat.mul_div_cancel _ (Nat.pos_pow_of_pos _ (by norm_num))]
    _ = o / (2 ^ (8 - kb) * 2 ^ ((8 - ks) - (8 - kb))) := by
        rw [Nat.div_div_eq_div_mul]

lemma octBits_mono {ns nb : Nat} (i : Nat) (h : ns ≤ nb) : octBits ns i ≤ octBits nb i :=
  min_le_min (le_refl 8) (Nat.sub_le_sub_right h _)

lemma maskIP_maskIP (ip : IPv4) {ns nb : Nat} (h : ns ≤ nb) :
    maskIP (maskIP ip nb) ns = maskIP ip ns := by
  unfold maskIP
  simp only [maskOctet_maskOctet _ _ _ (octBits_mono 0 h),
    maskOctet_maskOctet _ _ _ (octBits_mono 1 h),
    maskOctet_maskOctet _ _ _ (octBits_mono 2 h),
    maskOctet_maskOctet _ _ _ (octBits_mono 3 h)]

lemma maskIP_idem (ip : IPv4) (n : Nat) : maskIP (maskIP ip n) n = maskIP ip n :=
  maskIP_maskIP ip (le_refl n)

/-- CIDR inclusion: if `r` contains the base of `b` and `r` is at least as
coarse, then every address of `b` is an address of `r`. -/
lemma contains_of_contains_base {r b : CIDRBlock} {ip : IPv4} (hle : r.ones ≤ b.ones)
    (hb : r.contains b.base = true) (hip : b.contains ip = true) : r.contains ip = true := by
  unfold CIDRBlock.contains at *
  rw [decide_eq_true_eq] at *
  rw [← maskIP_maskIP ip hle, hip, hb]

lemma maskOctet_zero_of_lt {o : Nat} (h : o < 256) : maskOctet o 0 = 0 := by
  unfold maskOctet
  rw [Nat.div_eq_of_lt (by simpa using h), Nat.zero_mul]

lemma maskOctet_full (o : Nat) : maskOctet o 8 = o := by
  unfold maskOctet
  norm_num

/-- Masking a `10.240.x.y` address down to 16 bits lands exactly on the
reserved base `10.240.0.0`. -/
lemma maskIP_sixteen {t f : Nat} (ht : t < 256) (hf : f < 256) :
    maskIP ⟨10, 240, t, f⟩ 16 = ⟨10, 240, 0, 0⟩ := by
  unfold maskIP
  have h0 : octBits 16 0 = 8 := by decide
  have h1 : octBits 16 1 = 8 := by decide
  have h2 : octBits 16 2 = 0 := by decide
  have h3 : octBits 16 3 = 0 := by decide
  rw [h0, h1, h2, h3, maskOctet_full, maskOctet_full,
    maskOctet_zero_of_lt ht, maskOctet_zero_of_lt hf]


/-! ## Round-trip of the constructed CIDR string -/

lemma not_mem_ipChars {ip : IPv4} {c : Char} (h1 : ip.o1 < 256) (h2 : ip.o2 < 256)
    (h3 : ip.o3 < 256) (h4 : ip.o4 < 256) (hd : c.isDigit = false) (hdot : c ≠ '.') :
    c ∉ ipChars ip := by
  unfold ipChars
  intro hm
  rcases List.mem_append.mp hm with h | h
  · exact not_mem_of_all_isDigit (natToDec_digits _ h1) hd h
  rcases List.mem_cons.mp h with h | h
  · exact hdot h
  rcases List.mem_append.mp h with h | h
  · exact not_mem_of_all_isDigit (natToDec_digits _ h2) hd h
  rcases List.mem_cons.mp h with h | h
  · exact hdot h
  rcases List.mem_append.mp h with h | h
  · exact not_mem_of_all_isDigit (natToDec_digits _ h3) hd h
  rcases List.mem_cons.mp h with h | h
  · exact hdot h
  exact not_mem_of_all_isDigit (natToDec_digits _ h4) hd h

lemma slash_not_mem_ipChars {ip : IPv4} (h1 : ip.o1 < 256) (h2 : ip.o2 < 256)
    (h3 : ip.o3 < 256) (h4 : ip.o4 < 256) : '/' ∉ ipChars ip :=
  not_mem_ipChars h1 h2 h3 h4 (by decide) (by decide)

lemma parseIPv4_ipChars (ip : IPv4) (h1 : ip.o1 < 256) (h2 : ip.o2 < 256)
    (h3 : ip.o3 < 256) (h4 : ip.o4 < 256) : parseIPv4 (ipChars ip) = some ip := by
  have e1 := splitOnChar_append '.' (natToDec ip.o1)
    (natToDec ip.o2 ++ '.' :: (natToDec ip.o3 ++ '.' :: natToDec ip.o4))
    (dot_not_mem_natToDec h1)
  have e2 := splitOnChar_append '.' (natToDec ip.o2)
    (natToDec ip.o3 ++ '.' :: natToDec ip.o4) (dot_not_mem_natToDec h2)
  have e3 := splitOnChar_append '.' (natToDec ip.o3) (natToDec ip.o4)
    (dot_not_mem_natToDec h3)
  have e4 := splitOnChar_not_mem '.' (natToDec ip.o4) (dot_not_mem_natToDec h4)
  simp only [parseIPv4, ipChars, e1, e2, e3, e4,
    parseOctet_natToDec _ h1, parseOctet_natToDec _ h2,
    parseOctet_natToDec _ h3, parseOctet_natToDec _ h4]

/-- Re-parsing the string the sampler constructs recovers the masked block:
the success of the defensive re-parse in lines 75–78. -/
lemma parseCIDR_formatCIDR (ip : IPv4) (n : Nat) (h1 : ip.o1 < 256) (h2 : ip.o2 < 256)
    (h3 : ip.o3 < 256) (h4 : ip.o4 < 256) (hn : n ≤ 32) :
    parseCIDR (formatCIDR ip n) = some ⟨maskIP ip n, n⟩ := by
  have hs := splitFirst_append '/' (ipChars ip) (natToDec n)
    (slash_not_mem_ipChars h1 h2 h3 h4)
  have ht : (formatCIDR ip n).toList = ipChars ip ++ '/' :: natToDec n := rfl
  simp only [parseCIDR, ht, hs, parseIPv4_ipChars ip h1 h2 h3 h4,
    parseMask_natToDec n (by omega)]

/-- The canonical string of a block splits at `/` into exactly its address
part and its ones part: the success of the check in lines 79–82. -/
lemma splitOnChar_cidrString (b : CIDRBlock) (h1 : b.base.o1 < 256) (h2 : b.base.o2 < 256)
    (h3 : b.base.o3 < 256) (h4 : b.base.o4 < 256) (hn : b.ones < 256) :
    splitOnChar '/' (cidrString b).toList = [ipChars b.base, natToDec b.ones] := by
  have ht : (cidrString b).toList = ipChars b.base ++ '/' :: natToDec b.ones := rfl
  rw [ht, splitOnChar_append _ _ _ (slash_not_mem_ipChars h1 h2 h3 h4),
    splitOnChar_not_mem _ _ (slash_not_mem_natToDec hn)]

/-! ## The random draws -/

lemma thirdOctetDraw_bounds (rng : Nat → Nat) (k : Nat) :
    1 ≤ thirdOctetDraw rng k ∧ thirdOctetDraw rng k ≤ 254 := by
  unfold thirdOctetDraw intn
  have h : rng (2 * k) % 254 < 254 := Nat.mod_lt _ (by norm_num)
  rw [Nat.mod_eq_of_lt (by omega)]
  omega

lemma fourthOctetDraw_le (cidrBlockSize : Nat) (rng : Nat → Nat) (k : Nat) :
    fourthOctetDraw cidrBlockSize rng k
      ≤ 255 / fourthOctetIncrement cidrBlockSize * fourthOctetIncrement cidrBlockSize := by
  unfold fourthOctetDraw intn
  have hm : 255 / fourthOctetIncrement cidrBlockSize * fourthOctetIncrement cidrBlockSize
      ≤ 255 := Nat.div_mul_le_self 255 _
  have h : rng (2 * k + 1)
        % (255 / fourthOctetIncrement cidrBlockSize * fourthOctetIncrement cidrBlockSize + 1)
      < 255 / fourthOctetIncrement cidrBlockSize * fourthOctetIncrement cidrBlockSize + 1 :=
    Nat.mod_lt _ (Nat.succ_pos _)
  rw [Nat.mod_eq_of_lt (by omega)]
  omega

lemma thirdOctetDraw_lt_256 (rng : Nat → Nat) (k : Nat) : thirdOctetDraw rng k < 256 := by
  have := thirdOctetDraw_bounds rng k
  omega

lemma fourthOctetDraw_lt_256 (cidrBlockSize : Nat) (rng : Nat → Nat) (k : Nat) :
    fourthOctetDraw cidrBlockSize rng k < 256 := by
  have h1 := fourthOctetDraw_le cidrBlockSize rng k
  have h2 : 255 / fourthOctetIncrement cidrBlockSize * fourthOctetIncrement cidrBlockSize
      ≤ 255 := Nat.div_mul_le_self 255 _
  omega

/-! ## The sampling loop -/

set_option maxRecDepth 4000 in
/-- For any in-range block size, an iteration of the sampling loop returns
successfully, with the canonical string of the masked sampled candidate; in
particular neither defensive error branch fires, and the retained conflict
set plays no role in the outcome. -/
lemma sampleBody_ok (cidrBlockSize : Nat) (cidrBlocks : List CIDRBlock) (rng : Nat → Nat)
    (k : Nat) (h : cidrBlockSize ≤ 32) :
    sampleBody cidrBlockSize cidrBlocks rng k =
      .ok (cidrString ⟨maskIP ⟨10, 240, thirdOctetDraw rng k, fourthOctetDraw cidrBlockSize rng k⟩
        cidrBlockSize, cidrBlockSize⟩) := by
  have ht := thirdOctetDraw_lt_256 rng k
  have hf := fourthOctetDraw_lt_256 cidrBlockSize rng k
  have hparse := parseCIDR_formatCIDR ⟨10, 240, thirdOctetDraw rng k,
    fourthOctetDraw cidrBlockSize rng k⟩ cidrBlockSize (by norm_num) (by norm_num) ht hf h
  have hsplit := splitOnChar_cidrString
    ⟨maskIP ⟨10, 240, thirdOctetDraw rng k, fourthOctetDraw cidrBlockSize rng k⟩ cidrBlockSize,
      cidrBlockSize⟩
    (maskOctet_lt_256 _ (by norm_num)) (maskOctet_lt_256 _ (by norm_num))
    (maskOctet_lt_256 _ ht) (maskOctet_lt_256 _ hf) (show cidrBlockSize < 256 by omega)
  unfold sampleBody
  dsimp only []
  rw [hparse]
  dsimp only []
  rw [hsplit]
  norm_num

/-- The conflict set truly plays no role in one loop iteration: Go's inner
`continue` (line 72) only restarts the inner scan. -/
lemma sampleBody_blocks_irrelevant (cidrBlockSize : Nat) (cidrBlocks : List CIDRBlock)
    (rng : Nat → Nat) (k : Nat) :
    sampleBody cidrBlockSize cidrBlocks rng k = sampleBody cidrBlockSize [] rng k := rfl

/-! ## The route filter -/

/-- Routes whose `Network` does not end in the target suffix leave no trace:
filtering them away first changes nothing. -/
lemma filterRoutes_filter (routes : List Route) (network : String) :
    filterRoutes (routes.filter fun r => hasSuffix r.Network network) network
      = filterRoutes routes network := by
  induction routes with
  | nil => rfl
  | cons r rest ih =>
    by_cases h : hasSuffix r.Network network
    · rw [List.filter_cons_of_pos (by simpa using h)]
      rw [filterRoutes, filterRoutes, if_pos h, if_pos h]
      cases parseCIDR r.DestRange with
      | none => rfl
      | some ipNet =>
        dsimp only []
        by_cases h8 : ipNet.ones < 8
        · simp only [if_pos h8, ih]
        · rw [if_neg h8, if_neg h8]
          by_cases hleg : ipNet.base = legacyNetwork ∧ ipNet.ones ≤ 16
          · rw [if_pos hleg, if_pos hleg]
          · rw [if_neg hleg, if_neg hleg]
            by_cases hex : ipNet.ones ≤ 16 ∧ ipNet.contains ⟨10, 240, 1, 1⟩ = true ∧
                ipNet.contains ⟨10, 240, 250, 250⟩ = true
            · rw [if_pos hex, if_pos hex]
            · rw [if_neg hex, if_neg hex, ih]
    · rw [List.filter_cons_of_neg (by simpa using h)]
      rw [filterRoutes, if_neg h, ih]

/-- If a prefix of the route list filters cleanly and the remainder aborts,
the whole list aborts with the remainder's error. -/
lemma filterRoutes_append_error (pre rest : List Route) (network : String)
    (bs : List CIDRBlock) (e : AllocError)
    (hpre : filterRoutes pre network = .ok bs)
    (hrest : filterRoutes rest network = .error e) :
    filterRoutes (pre ++ rest) network = .error e := by
  induction pre generalizing bs with
  | nil => simpa using hrest
  | cons r pre' ih =>
    rw [filterRoutes] at hpre
    rw [List.cons_append, filterRoutes]
    by_cases h : hasSuffix r.Network network
    · rw [if_pos h] at hpre ⊢
      cases hp : parseCIDR r.DestRange with
      | none =>
        rw [hp] at hpre
        exact absurd hpre (by simp)
      | some ipNet =>
        rw [hp] at hpre
        dsimp only [] at hpre ⊢
        by_cases h8 : ipNet.ones < 8
        · rw [if_pos h8] at hpre ⊢
          exact ih bs hpre
        · rw [if_neg h8] at hpre ⊢
          by_cases hleg : ipNet.base = legacyNetwork ∧ ipNet.ones ≤ 16
          · rw [if_pos hleg] at hpre; exact absurd hpre (by simp)
          · rw [if_neg hleg] at hpre ⊢
            by_cases hex : ipNet.ones ≤ 16 ∧ ipNet.contains ⟨10, 240, 1, 1⟩ = true ∧
                ipNet.contains ⟨10, 240, 250, 250⟩ = true
            · rw [if_pos hex] at hpre
              exact absurd hpre (by simp)
            · rw [if_neg hex] at hpre ⊢
              cases hrec : filterRoutes pre' network with
              | error e' =>
                rw [hrec] at hpre
                exact absurd hpre (by simp)
              | ok l => rw [ih l hrec]
    · rw [if_neg h] at hpre ⊢
      exact ih bs hpre

/-- A relevant route that parses to the legacy base with prefix length in
`[8, 16]` makes the filter abort at once with the legacy error. -/
lemma filterRoutes_cons_legacy (r : Route) (post : List Route) (network : String) (n : Nat)
    (hs : hasSuffix r.Network network = true)
    (hp : parseCIDR r.DestRange = some ⟨legacyNetwork, n⟩)
    (h8 : 8 ≤ n) (h16 : n ≤ 16) :
    filterRoutes (r :: post) network = .error .legacyUnsupported := by
  rw [filterRoutes, if_pos hs, hp]
  dsimp only []
  rw [if_neg (by omega), if_pos ⟨rfl, h16⟩]

/-- A relevant route with prefix length in `[8, 16]`, base distinct from the
legacy base, containing both probe addresses, makes the filter abort at once
with the range-exhausted error. -/
lemma filterRoutes_cons_rangeExhausted (r : Route) (post : List Route) (network : String)
    (b : CIDRBlock) (hs : hasSuffix r.Network network = true)
    (hp : parseCIDR r.DestRange = some b)
    (h8 : 8 ≤ b.ones) (h16 : b.ones ≤ 16) (hnl : b.base ≠ legacyNetwork)
    (hc1 : b.contains ⟨10, 240, 1, 1⟩ = true) (hc2 : b.contains ⟨10, 240, 250, 250⟩ = true) :
    filterRoutes (r :: post) network = .error .rangeExhausted := by
  rw [filterRoutes, if_pos hs, hp]
  dsimp only []
  rw [if_neg (by omega), if_neg (fun hh => hnl hh.1), if_pos ⟨h16, hc1, hc2⟩]

/-- A relevant route whose destination range does not parse forces the filter
— and with it the whole allocation — to abort with some error (the parse
error if nothing earlier aborted first). -/
lemma filterRoutes_error_of_malformed (routes : List Route) (network : String)
    (h : ∃ r ∈ routes, hasSuffix r.Network network = true ∧ parseCIDR r.DestRange = none) :
    ∃ e, filterRoutes routes network = .error e := by
  induction routes with
  | nil => simp at h
  | cons r0 rest ih =>
    obtain ⟨r, hr, hrs, hrp⟩ := h
    rw [filterRoutes]
    rcases List.mem_cons.mp hr with rfl | hmem
    · rw [if_pos hrs, hrp]
      exact ⟨_, rfl⟩
    · by_cases h0 : hasSuffix r0.Network network
      · rw [if_pos h0]
        cases hp : parseCIDR r0.DestRange with
        | none => exact ⟨_, rfl⟩
        | some ipNet =>
          dsimp only []
          obtain ⟨e, he⟩ := ih ⟨r, hmem, hrs, hrp⟩
          by_cases h8 : ipNet.ones < 8
          · exact ⟨e, by rw [if_pos h8, he]⟩
          · rw [if_neg h8]
            by_cases hleg : ipNet.base = legacyNetwork ∧ ipNet.ones ≤ 16
            · exact ⟨_, by rw [if_pos hleg]⟩
            · rw [if_neg hleg]
              by_cases hex : ipNet.ones ≤ 16 ∧ ipNet.contains ⟨10, 240, 1, 1⟩ = true ∧
                  ipNet.contains ⟨10, 240, 250, 250⟩ = true
              · exact ⟨_, by rw [if_pos hex]⟩
              · rw [if_neg hex, he]
                exact ⟨e, rfl⟩
      · rw [if_neg h0]
        exact ih ⟨r, hmem, hrs, hrp⟩

/-- Inverting a successful run: the returned string is the canonical string
of the masked first-draw candidate. -/
lemma selectCIDRBlock_ok_shape (routes : List Route) (size : Nat) (network : String)
    (rng : Nat → Nat) (fuel : Nat) (s : String) (h32 : size ≤ 32)
    (h : selectCIDRBlock routes size network rng fuel = some (.ok s)) :
    s = cidrString ⟨maskIP ⟨10, 240, thirdOctetDraw rng 0, fourthOctetDraw size rng 0⟩ size,
      size⟩ := by
  rw [selectCIDRBlock] at h
  cases hfr : filterRoutes routes network with
  | error e =>
    rw [hfr] at h
    exact absurd h (by simp)
  | ok blocks =>
    rw [hfr] at h
    dsimp only [] at h
    cases fuel with
    | zero => exact absurd h (by simp [selectLoop])
    | succ f =>
      rw [show selectLoop size blocks rng 0 (f + 1) = some (sampleBody size blocks rng 0)
        from rfl, sampleBody_ok size blocks rng 0 h32] at h
      have := Option.some.inj h
      have := Except.ok.inj this
      exact this.symm

lemma lookup_eq_none_of_not_mem {l : List (String × Nat)} {ht : String}
    (h : ∀ n, (ht, n) ∉ l) : l.lookup ht = none := by
  induction l with
  | nil => rfl
  | cons p rest ih =>
    obtain ⟨k, v⟩ := p
    rw [List.lookup]
    cases hk : ht == k with
    | true =>
      have hek : ht = k := by simpa using hk
      subst hek
      exact absurd (List.mem_cons_self _ _) (h v)
    | false =>
      dsimp only []
      exact ih fun n hn => h n (List.mem_cons_of_mem _ hn)

/-! ## The claims -/

/-- C1: the claim asserts that a successful `selectCIDRBlock` result never
overlaps a retained conflict block.  The code violates it: with the single
relevant route `10.240.5.0/24` (retained in the conflict set) and draws
`4, 4`, the call succeeds with `10.240.5.0/29`, whose base address is
contained in the retained conflict block — a true CIDR overlap.  The spec
itself documents the dead per-route check as a historical bug, so this is a
code bug, not a spec error. -/
theorem C1_overlap_bug :
    selectCIDRBlock [⟨"proj/default", "10.240.5.0/24"⟩] 29 "default" (fun _ => 4) 1
      = some (.ok "10.240.5.0/29") ∧
    filterRoutes [⟨"proj/default", "10.240.5.0/24"⟩] "default"
      = .ok [⟨⟨10, 240, 5, 0⟩, 24⟩] ∧
    parseCIDR "10.240.5.0/29" = some ⟨⟨10, 240, 5, 0⟩, 29⟩ ∧
    CIDRBlock.contains ⟨⟨10, 240, 5, 0⟩, 24⟩ ⟨10, 240, 5, 0⟩ = true :=
  ⟨rfl, rfl, rfl, rfl⟩

/-- C2: any successful allocation with `16 ≤ cidrBlockSize ≤ 32` returns a
CIDR string that parses back to a block whose prefix length is the requested
size and which lies entirely within the reserved range `10.240.0.0/16`. -/
theorem C2_result_in_reserved_range (routes : List Route) (size : Nat) (network : String)
    (rng : Nat → Nat) (fuel : Nat) (s : String) (h16 : 16 ≤ size) (h32 : size ≤ 32)
    (h : selectCIDRBlock routes size network rng fuel = some (.ok s)) :
    ∃ b : CIDRBlock, parseCIDR s = some b ∧ b.ones = size ∧
      CIDRBlock.contains ⟨⟨10, 240, 0, 0⟩, 16⟩ b.base = true ∧
      ∀ ip : IPv4, b.contains ip = true →
        CIDRBlock.contains ⟨⟨10, 240, 0, 0⟩, 16⟩ ip = true := by
  have hs := selectCIDRBlock_ok_shape routes size network rng fuel s h32 h
  subst hs
  have ht := thirdOctetDraw_lt_256 rng 0
  have hf := fourthOctetDraw_lt_256 size rng 0
  have hbase : CIDRBlock.contains ⟨⟨10, 240, 0, 0⟩, 16⟩
      (maskIP ⟨10, 240, thirdOctetDraw rng 0, fourthOctetDraw size rng 0⟩ size) = true := by
    rw [CIDRBlock.contains, decide_eq_true_eq]
    show maskIP _ 16 = _
    rw [maskIP_maskIP _ h16, maskIP_sixteen ht hf]
  refine ⟨⟨maskIP ⟨10, 240, thirdOctetDraw rng 0, fourthOctetDraw size rng 0⟩ size, size⟩,
    ?_, rfl, hbase, ?_⟩
  · rw [cidrString]
    dsimp only []
    rw [parseCIDR_formatCIDR _ size (maskOctet_lt_256 _ (by norm_num))
      (maskOctet_lt_256 _ (by norm_num)) (maskOctet_lt_256 _ ht) (maskOctet_lt_256 _ hf) h32,
      maskIP_idem]
  · intro ip hip
    exact contains_of_contains_base (show (16 : Nat) ≤ size from h16) hbase hip

/-- C2 witness: a concrete successful run with size 29 lands in the reserved
range. -/
theorem C2_witness :
    16 ≤ 29 ∧ 29 ≤ 32 ∧
    selectCIDRBlock [] 29 "default" (fun _ => 0) 1 = some (.ok "10.240.1.0/29") ∧
    ∃ b : CIDRBlock, parseCIDR "10.240.1.0/29" = some b ∧ b.ones = 29 ∧
      CIDRBlock.contains ⟨⟨10, 240, 0, 0⟩, 16⟩ b.base = true ∧
      ∀ ip : IPv4, b.contains ip = true →
        CIDRBlock.contains ⟨⟨10, 240, 0, 0⟩, 16⟩ ip = true :=
  ⟨by norm_num, by norm_num, rfl,
    C2_result_in_reserved_range [] 29 "default" (fun _ => 0) 1 "10.240.1.0/29"
      (by norm_num) (by norm_num) rfl⟩

/-- C3: once the route filter succeeds, the sampling loop returns within its
first iteration — the result is determined by the first two random draws and
does not depend on the retained conflict set at all. -/
theorem C3_first_draw_returned (routes : List Route) (size : Nat) (network : String)
    (rng : Nat → Nat) (fuel : Nat) (blocks : List CIDRBlock)
    (hf : filterRoutes routes network = .ok blocks) (hfuel : 1 ≤ fuel) :
    selectCIDRBlock routes size network rng fuel = some (sampleBody size [] rng 0) := by
  obtain ⟨f, rfl⟩ : ∃ f, fuel = f + 1 := ⟨fuel - 1, by omega⟩
  have h1 : selectCIDRBlock routes size network rng (f + 1)
      = some (sampleBody size blocks rng 0) := by
    rw [selectCIDRBlock, hf]
    rfl
  rw [h1, sampleBody_blocks_irrelevant]

/-- C3 witness: with one irrelevant route the filter yields an empty conflict
set and the call returns the first sample for any fuel. -/
theorem C3_witness :
    filterRoutes [⟨"proj/net-a", "10.240.0.0/16"⟩] "net-b" = .ok [] ∧
    selectCIDRBlock [⟨"proj/net-a", "10.240.0.0/16"⟩] 29 "net-b" (fun _ => 7) 5
      = some (sampleBody 29 [] (fun _ => 7) 0) :=
  ⟨rfl, C3_first_draw_returned [⟨"proj/net-a", "10.240.0.0/16"⟩] 29 "net-b" (fun _ => 7) 5 []
    rfl (by norm_num)⟩

/-- C4: routes whose `Network` does not end with the target suffix are never
parsed and never reach the conflict set: deleting them leaves the result,
error or success, unchanged for the same draws — in particular a malformed
destination range on such a route cannot abort the call. -/
theorem C4_irrelevant_routes_ignored (routes : List Route) (size : Nat) (network : String)
    (rng : Nat → Nat) (fuel : Nat) :
    selectCIDRBlock (routes.filter fun r => hasSuffix r.Network network) size network rng fuel
      = selectCIDRBlock routes size network rng fuel := by
  rw [selectCIDRBlock, selectCIDRBlock, filterRoutes_filter]

/-- C5 counterexample: the claim promises the legacy error whenever a
relevant legacy route is present, but an earlier relevant route can abort
first with a different error: here `10.0.0.0/8` triggers the range-exhausted
error even though the legacy route `10.240.0.0/16` (relevant, base
`10.240.0.0`, prefix 16) is present. -/
theorem C5_counterexample :
    hasSuffix "default" "default" = true ∧
    parseCIDR "10.240.0.0/16" = some ⟨legacyNetwork, 16⟩ ∧
    selectCIDRBlock [⟨"default", "10.0.0.0/8"⟩, ⟨"default", "10.240.0.0/16"⟩] 29 "default"
      (fun _ => 0) 1 = some (.error .rangeExhausted) ∧
    AllocError.rangeExhausted ≠ AllocError.legacyUnsupported :=
  ⟨rfl, rfl, rfl, by decide⟩

/-- C5 (amended): if the routes before the legacy route all filter cleanly,
a relevant route parsing to base `10.240.0.0` with prefix length in `[8, 16]`
makes `selectCIDRBlock` fail with the legacy-network error, returning no CIDR
string. -/
theorem C5_legacy_error (pre post : List Route) (r : Route) (size : Nat) (network : String)
    (rng : Nat → Nat) (fuel : Nat) (bs : List CIDRBlock) (n : Nat)
    (hpre : filterRoutes pre network = .ok bs)
    (hs : hasSuffix r.Network network = true)
    (hp : parseCIDR r.DestRange = some ⟨legacyNetwork, n⟩)
    (h8 : 8 ≤ n) (h16 : n ≤ 16) :
    selectCIDRBlock (pre ++ r :: post) size network rng fuel
      = some (.error .legacyUnsupported) := by
  have h1 := filterRoutes_cons_legacy r post network n hs hp h8 h16
  have h2 := filterRoutes_append_error pre (r :: post) network bs _ hpre h1
  rw [selectCIDRBlock, h2]

/-- C5 witness: the spec's own scenario — a single relevant `10.240.0.0/16`
route fails with the legacy error. -/
theorem C5_witness :
    selectCIDRBlock [⟨"default", "10.240.0.0/16"⟩] 29 "default" (fun _ => 0) 3
      = some (.error .legacyUnsupported) :=
  C5_legacy_error [] [] ⟨"default", "10.240.0.0/16"⟩ 29 "default" (fun _ => 0) 3 [] 16
    rfl rfl rfl (by norm_num) (by norm_num)

/-- C6 counterexample: the claim promises the range-exhausted error for any
relevant route of prefix ≤ 16 containing both probes, but (a) for
`10.240.0.0/15` — which contains both probes — the legacy check fires first,
and (b) a `0.0.0.0/0` route — which also contains both probes — is skipped
by the `< 8` filter and the allocation SUCCEEDS. -/
theorem C6_counterexample :
    parseCIDR "10.240.0.0/15" = some ⟨⟨10, 240, 0, 0⟩, 15⟩ ∧
    CIDRBlock.contains ⟨⟨10, 240, 0, 0⟩, 15⟩ ⟨10, 240, 1, 1⟩ = true ∧
    CIDRBlock.contains ⟨⟨10, 240, 0, 0⟩, 15⟩ ⟨10, 240, 250, 250⟩ = true ∧
    selectCIDRBlock [⟨"default", "10.240.0.0/15"⟩] 29 "default" (fun _ => 0) 1
      = some (.error .legacyUnsupported) ∧
    AllocError.legacyUnsupported ≠ AllocError.rangeExhausted ∧
    parseCIDR "0.0.0.0/0" = some ⟨⟨0, 0, 0, 0⟩, 0⟩ ∧
    CIDRBlock.contains ⟨⟨0, 0, 0, 0⟩, 0⟩ ⟨10, 240, 1, 1⟩ = true ∧
    CIDRBlock.contains ⟨⟨0, 0, 0, 0⟩, 0⟩ ⟨10, 240, 250, 250⟩ = true ∧
    selectCIDRBlock [⟨"default", "0.0.0.0/0"⟩] 29 "default" (fun _ => 0) 1
      = some (.ok "10.240.1.0/29") :=
  ⟨rfl, rfl, rfl, rfl, by decide, rfl, rfl, rfl, rfl⟩

/-- C6 (amended): if the routes before it filter cleanly, a relevant route
with prefix length in `[8, 16]`, base distinct from `10.240.0.0`, whose block
contains both probe addresses, makes `selectCIDRBlock` fail with the
range-exhausted error, returning no CIDR string. -/
theorem C6_rangeExhausted_error (pre post : List Route) (r : Route) (size : Nat)
    (network : String) (rng : Nat → Nat) (fuel : Nat) (bs : List CIDRBlock) (b : CIDRBlock)
    (hpre : filterRoutes pre network = .ok bs)
    (hs : hasSuffix r.Network network = true)
    (hp : parseCIDR r.DestRange = some b)
    (h8 : 8 ≤ b.ones) (h16 : b.ones ≤ 16) (hnl : b.base ≠ legacyNetwork)
    (hc1 : b.contains ⟨10, 240, 1, 1⟩ = true) (hc2 : b.contains ⟨10, 240, 250, 250⟩ = true) :
    selectCIDRBlock (pre ++ r :: post) size network rng fuel
      = some (.error .rangeExhausted) := by
  have h1 := filterRoutes_cons_rangeExhausted r post network b hs hp h8 h16 hnl hc1 hc2
  have h2 := filterRoutes_append_error pre (r :: post) network bs _ hpre h1
  rw [selectCIDRBlock, h2]

/-- C6 witness: the spec's own scenario — a single relevant `10.0.0.0/8`
route (contains both probes, base not legacy) fails with range-exhausted. -/
theorem C6_witness :
    selectCIDRBlock [⟨"default", "10.0.0.0/8"⟩] 29 "default" (fun _ => 0) 3
      = some (.error .rangeExhausted) :=
  C6_rangeExhausted_error [] [] ⟨"default", "10.0.0.0/8"⟩ 29 "default" (fun _ => 0) 3 []
    ⟨⟨10, 0, 0, 0⟩, 8⟩ rfl rfl rfl (by norm_num) (by norm_num) (by decide) rfl rfl

/-- C7: a relevant route whose destination range is not valid CIDR notation
forces the whole allocation to abort with an error — no CIDR string and no
partial result is ever produced. -/
theorem C7_malformed_aborts (routes : List Route) (size : Nat) (network : String)
    (rng : Nat → Nat) (fuel : Nat)
    (h : ∃ r ∈ routes, hasSuffix r.Network network = true ∧ parseCIDR r.DestRange = none) :
    ∃ e, selectCIDRBlock routes size network rng fuel = some (.error e) := by
  obtain ⟨e, he⟩ := filterRoutes_error_of_malformed routes network h
  exact ⟨e, by rw [selectCIDRBlock, he]⟩

/-- C7 witness: a single relevant route with garbage destination range
aborts the call. -/
theorem C7_witness :
    ∃ e, selectCIDRBlock [⟨"default", "garbage"⟩] 29 "default" (fun _ => 0) 1
      = some (.error e) :=
  C7_malformed_aborts [⟨"default", "garbage"⟩] 29 "default" (fun _ => 0) 1
    ⟨⟨"default", "garbage"⟩, List.mem_singleton.mpr rfl, rfl, rfl⟩

/-- C8 counterexample: the claim says every sampled fourth octet is a
multiple of `fourthOctetIncrement`; with size 29 (increment 8) and second
draw 1, the sampled fourth octet is 1, not a multiple of 8 —
`rand.Intn((255/inc)*inc + 1)` ranges over ALL integers of `[0, (255/inc)*inc]`,
not only the multiples of the increment. -/
theorem C8_counterexample :
    fourthOctetIncrement 29 = 8 ∧
    thirdOctetDraw (fun _ => 1) 0 = 2 ∧
    fourthOctetDraw 29 (fun _ => 1) 0 = 1 ∧
    ¬ fourthOctetIncrement 29 ∣ fourthOctetDraw 29 (fun _ => 1) 0 := by decide

/-- C8 (amended): on every draw the third octet lies in `[1, 254]` and the
fourth octet lies in `[0, (255 / increment) * increment]`; it need not be a
multiple of the increment (alignment only happens later, when parsing masks
the candidate address). -/
theorem C8_draw_bounds (size : Nat) (rng : Nat → Nat) (k : Nat) (h : size ≤ 32) :
    1 ≤ thirdOctetDraw rng k ∧ thirdOctetDraw rng k ≤ 254 ∧
    fourthOctetDraw size rng k
      ≤ 255 / fourthOctetIncrement size * fourthOctetIncrement size := by
  have h3 := thirdOctetDraw_bounds rng k
  exact ⟨h3.1, h3.2, fourthOctetDraw_le size rng k⟩

/-- C8 witness: the bounds at size 29, draw stream constantly 5. -/
theorem C8_draw_bounds_witness :
    1 ≤ thirdOctetDraw (fun _ => 5) 0 ∧ thirdOctetDraw (fun _ => 5) 0 ≤ 254 ∧
    fourthOctetDraw 29 (fun _ => 5) 0
      ≤ 255 / fourthOctetIncrement 29 * fourthOctetIncrement 29 :=
  C8_draw_bounds 29 (fun _ => 5) 0 (by norm_num)

/-- C9: `cidrBlockSize` returns exactly the statically-tabled prefix length
for present keys and the unknown-hardware-type error for absent ones; in
particular `"v3-256"` yields 26 and `"v9-999"` fails.  (The table is a plain
constant of the embedding; nothing in the program writes to it.) -/
theorem C9_cidrBlockSize_table :
    (∀ p ∈ tpuDeviceNetworkSizes, cidrBlockSize p.1 = .ok p.2) ∧
    (∀ ht : String, (∀ n, (ht, n) ∉ tpuDeviceNetworkSizes) →
      cidrBlockSize ht = .error (.unknownHardwareType ht)) ∧
    cidrBlockSize "v3-256" = .ok 26 ∧
    cidrBlockSize "v9-999" = .error (.unknownHardwareType "v9-999") := by
  refine ⟨?_, ?_, rfl, rfl⟩
  · intro p hp
    fin_cases hp <;> rfl
  · intro ht habs
    rw [cidrBlockSize, lookup_eq_none_of_not_mem habs]

/-- C9 witness: the table facts at the concrete keys of the claim, plus an
absent-key instance. -/
theorem C9_witness :
    cidrBlockSize "v3-8" = .ok 29 ∧ cidrBlockSize "zzz" = .error (.unknownHardwareType "zzz") :=
  ⟨(C9_cidrBlockSize_table.1 ("v3-8", 29) (by simp [tpuDeviceNetworkSizes])),
    (C9_cidrBlockSize_table.2.1 "zzz" (by simp [tpuDeviceNetworkSizes]))⟩

/-- C10: with `cidrBlockSize ≤ 32` the defensive checks of lines 75–82 never
fire: the constructed candidate string re-parses to the masked candidate
block, its canonical string splits on `/` into exactly two parts, and the
loop body returns `ok` — the two malformed-constructed-CIDR error branches
are unreachable. -/
theorem C10_defensive_checks_unreachable (size : Nat) (blocks : List CIDRBlock)
    (rng : Nat → Nat) (k : Nat) (h : size ≤ 32) :
    parseCIDR (formatCIDR ⟨10, 240, thirdOctetDraw rng k, fourthOctetDraw size rng k⟩ size)
      = some ⟨maskIP ⟨10, 240, thirdOctetDraw rng k, fourthOctetDraw size rng k⟩ size, size⟩ ∧
    (splitOnChar '/' (cidrString ⟨maskIP ⟨10, 240, thirdOctetDraw rng k,
        fourthOctetDraw size rng k⟩ size, size⟩).toList).length = 2 ∧
    sampleBody size blocks rng k
      = .ok (cidrString ⟨maskIP ⟨10, 240, thirdOctetDraw rng k,
          fourthOctetDraw size rng k⟩ size, size⟩) := by
  have ht := thirdOctetDraw_lt_256 rng k
  have hf := fourthOctetDraw_lt_256 size rng k
  refine ⟨parseCIDR_formatCIDR _ _ (by norm_num) (by norm_num) ht hf h, ?_,
    sampleBody_ok size blocks rng k h⟩
  rw [splitOnChar_cidrString _ (maskOctet_lt_256 _ (by norm_num))
    (maskOctet_lt_256 _ (by norm_num)) (maskOctet_lt_256 _ ht) (maskOctet_lt_256 _ hf)
    (show size < 256 by omega)]
  rfl

/-- C10 witness: the three conclusions at size 29, stream constantly 0. -/
theorem C10_witness :
    parseCIDR (formatCIDR ⟨10, 240, thirdOctetDraw (fun _ => 0) 0,
        fourthOctetDraw 29 (fun _ => 0) 0⟩ 29)
      = some ⟨maskIP ⟨10, 240, thirdOctetDraw (fun _ => 0) 0,
          fourthOctetDraw 29 (fun _ => 0) 0⟩ 29, 29⟩ ∧
    (splitOnChar '/' (cidrString ⟨maskIP ⟨10, 240, thirdOctetDraw (fun _ => 0) 0,
        fourthOctetDraw 29 (fun _ => 0) 0⟩ 29, 29⟩).toList).length = 2 ∧
    sampleBody 29 [] (fun _ => 0) 0
      = .ok (cidrString ⟨maskIP ⟨10, 240, thirdOctetDraw (fun _ => 0) 0,
          fourthOctetDraw 29 (fun _ => 0) 0⟩ 29, 29⟩) :=
  C10_defensive_checks_unreachable 29 [] (fun _ => 0) 0 (by norm_num)
